import Mathlib

/-!
# Verification of the Secret Santa room-state store and scoring engine

Shallow embedding of the repository's core logic:

* the scoring function `calculatePoints` (results page / game-mode tests),
* the in-memory store (`mockStore.ts`): room state, registration, game
  start/advance, guess submissions keyed by the string `"<player>-<round>"`,
  actual-Santa records, the two polls, and reset.

JavaScript `Record` objects are modelled as functions into `Option`,
JavaScript `Map`s as insertion-ordered association lists, `Date.now()` and the
random shuffle as explicit parameters, and listener notification as a counter
incremented exactly where the source calls `notifyListeners`.
-/

namespace SecretSanta

/-- Game mode of a submission: `'risk' | 'safe'`. -/
inductive GameMode where
  | risk
  | safe
deriving DecidableEq, Repr

/-- A submission row as consumed by the results page and the scoring tests
(`player_name`, `round_index`, `guessed_santa_name`, optional `guessed_santas`,
optional `game_mode`). -/
structure SubmissionRow where
  player_name : String
  round_index : Nat
  guessed_santa_name : String
  guessed_santas : Option (List String)
  game_mode : Option GameMode
deriving DecidableEq, Repr

/-- `Record<string, number>` of scores: candidates map to `some` score once
assigned, `none` while absent from the record. -/
abbrev Scores := String → Option Int

/-- The guess list used by the scoring code:
`sub.guessed_santas || [sub.guessed_santa_name]`. -/
def guessesOf (sub : SubmissionRow) : List String :=
  sub.guessed_santas.getD [sub.guessed_santa_name]

/-- The effective game mode: `sub.game_mode || 'risk'`. -/
def gameModeOf (sub : SubmissionRow) : GameMode :=
  sub.game_mode.getD GameMode.risk

/-- Whether the submitter is the round's recipient:
`sub.player_name === openingOrder[sub.round_index]`. -/
def isRecipient (openingOrder : List String) (sub : SubmissionRow) : Bool :=
  openingOrder.get? sub.round_index = some sub.player_name

/-- `pointsToAdd` from the scoring loop: 1 for non-recipients; for the
recipient, 3 in risk mode and 1 in safe mode. -/
def pointsToAdd (openingOrder : List String) (sub : SubmissionRow) : Int :=
  if isRecipient openingOrder sub then
    if gameModeOf sub = GameMode.risk then 3 else 1
  else 1

/-- `points[name] = (points[name] || 0) + add`. -/
def addPoints (pts : Scores) (name : String) (add : Int) : Scores :=
  fun k => if k = name then some ((pts name).getD 0 + add) else pts k

/-- One iteration of the scoring loop over a submission: skip if the round has
no truthy actual Santa, skip if no guess matches, otherwise add
`pointsToAdd`. -/
def scoreStep (actualSantas : Nat → Option String) (openingOrder : List String)
    (pts : Scores) (sub : SubmissionRow) : Scores :=
  match actualSantas sub.round_index with
  | none => pts
  | some st =>
    if st = "" then pts
    else if st ∈ guessesOf sub then
      addPoints pts sub.player_name (pointsToAdd openingOrder sub)
    else pts

/-- The initialization loop: every participant in `openingOrder` starts at 0. -/
def initPoints (openingOrder : List String) : Scores :=
  openingOrder.foldl (fun pts p => fun k => if k = p then some 0 else pts k)
    (fun _ => none)

/-- `calculatePoints` from the results page (and, identically, from the
game-mode test file): initialize every participant to 0, then fold the scoring
loop over the submissions. -/
def calculatePoints (submissions : List SubmissionRow)
    (actualSantas : Nat → Option String) (openingOrder : List String) : Scores :=
  submissions.foldl (scoreStep actualSantas openingOrder) (initPoints openingOrder)

/-- A stored submission (`Submission` in `types.ts` / `mockStore.ts`). -/
structure Submission where
  playerName : String
  roundIndex : Nat
  guessedSantaName : String
  guessedSantas : List String
  gameMode : GameMode
  timestamp : Int
deriving DecidableEq, Repr

/-- `RoomState` from `types.ts`: the shared room record. -/
structure RoomState where
  openingOrder : List String
  currentIndex : Nat
  roundStartedAt : Option Int
  durationSec : Int
  isStarted : Bool
  resultsUnlocked : Bool
  pollUnlocked : Bool
  sweaterPollUnlocked : Bool
deriving DecidableEq, Repr

/-- The whole `MockStore` instance state.  JavaScript `Map`s become
insertion-ordered association lists, the `Set` of active players an
insertion-ordered duplicate-free list, and the listener set is abstracted to a
counter of `notifyListeners()` calls (each call fans the fresh state out to
every subscriber). -/
structure Store where
  roomState : RoomState
  activePlayers : List String
  submissions : List (String × Submission)
  actualSantas : List (Nat × String)
  pollVotes : List (String × String)
  sweaterVotes : List (String × String)
  notifyCount : Nat
deriving DecidableEq, Repr

/-- The initial `roomState` field of the store. -/
def initialRoomState : RoomState where
  openingOrder := []
  currentIndex := 0
  roundStartedAt := none
  durationSec := 90
  isStarted := false
  resultsUnlocked := false
  pollUnlocked := false
  sweaterPollUnlocked := false

/-- A fresh store, as constructed by `new MockStore()`. -/
def initialStore : Store where
  roomState := initialRoomState
  activePlayers := []
  submissions := []
  actualSantas := []
  pollVotes := []
  sweaterVotes := []
  notifyCount := 0

/-- `notifyListeners()`: delivers the current state to every subscriber; here,
bump the observation counter. -/
def notifyListeners (s : Store) : Store :=
  { s with notifyCount := s.notifyCount + 1 }

/-- The fixed fallback roster `ALL_PLAYERS`. -/
def ALL_PLAYERS : List String := ["Alice", "Bob"]

/-- `registerPlayer(name)`: `Set.add` — append if not already present. -/
def registerPlayer (name : String) (s : Store) : Store :=
  if name ∈ s.activePlayers then s
  else { s with activePlayers := s.activePlayers ++ [name] }

/-- `startGame()`.  The random shuffle (`sort(() => Math.random() - 0.5)`, which
reorders its input) and `Date.now()` are explicit parameters. -/
def startGame (shuffle : List String → List String) (now : Int) (s : Store) :
    Store :=
  let playersArray :=
    if s.activePlayers.length > 0 then s.activePlayers else ALL_PLAYERS
  let shuffled := shuffle playersArray
  notifyListeners
    { s with
      roomState :=
        { openingOrder := shuffled
          currentIndex := 0
          roundStartedAt := some now
          durationSec := s.roomState.durationSec
          isStarted := true
          resultsUnlocked := false
          pollUnlocked := false
          sweaterPollUnlocked := false } }

/-- `nextRecipient()`: no-op unless started and strictly before the last index
(the source compares with JavaScript number arithmetic, hence the `Int`
cast). -/
def nextRecipient (now : Int) (s : Store) : Store :=
  if !s.roomState.isStarted then s
  else if (s.roomState.currentIndex : Int) ≥
      (s.roomState.openingOrder.length : Int) - 1 then s
  else
    notifyListeners
      { s with
        roomState :=
          { s.roomState with
            currentIndex := s.roomState.currentIndex + 1
            roundStartedAt := some now } }

/-- `setTimerDuration(seconds)`. -/
def setTimerDuration (seconds : Int) (s : Store) : Store :=
  notifyListeners
    { s with roomState := { s.roomState with durationSec := seconds } }

/-- The submission key `` `${playerName}-${roundIndex}` ``. -/
def mkKey (playerName : String) (roundIndex : Nat) : String :=
  playerName ++ "-" ++ Nat.repr roundIndex

/-- `submitGuess(playerName, roundIndex, guessedSantas, gameMode)`: reject if
the key is present, otherwise store a new submission.  Returns the source's
boolean together with the updated store. -/
def submitGuess (playerName : String) (roundIndex : Nat)
    (guessedSantas : List String) (gameMode : GameMode) (now : Int)
    (s : Store) : Bool × Store :=
  let key := mkKey playerName roundIndex
  if s.submissions.any (fun e => e.1 = key) then
    (false, s)
  else
    let sub : Submission :=
      { playerName := playerName
        roundIndex := roundIndex
        guessedSantaName := guessedSantas.headD ""
        guessedSantas := guessedSantas
        gameMode := gameMode
        timestamp := now }
    (true, { s with submissions := s.submissions ++ [(key, sub)] })

/-- `hasSubmitted(playerName, roundIndex)`. -/
def hasSubmitted (playerName : String) (roundIndex : Nat) (s : Store) : Bool :=
  s.submissions.any (fun e => e.1 = mkKey playerName roundIndex)

/-- `getCurrentRecipient()`: `null` unless started and non-empty, else
`openingOrder[currentIndex] ?? null`. -/
def getCurrentRecipient (s : Store) : Option String :=
  if !s.roomState.isStarted || s.roomState.openingOrder.length = 0 then none
  else s.roomState.openingOrder.get? s.roomState.currentIndex

/-- `Map.set` semantics: update in place if the key exists, else append. -/
def mapSet {α β : Type} [DecidableEq α] :
    List (α × β) → α → β → List (α × β)
  | [], k, v => [(k, v)]
  | (k', v') :: rest, k, v =>
    if k' = k then (k, v) :: rest else (k', v') :: mapSet rest k v

/-- `setActualSanta(roundIndex, actualSantaName)`: upsert. -/
def setActualSanta (roundIndex : Nat) (actualSantaName : String) (s : Store) :
    Store :=
  { s with actualSantas := mapSet s.actualSantas roundIndex actualSantaName }

/-- `unlockResults()`. -/
def unlockResults (s : Store) : Store :=
  notifyListeners
    { s with roomState := { s.roomState with resultsUnlocked := true } }

/-- `unlockPoll()`. -/
def unlockPoll (s : Store) : Store :=
  notifyListeners
    { s with roomState := { s.roomState with pollUnlocked := true } }

/-- `unlockSweaterPoll()`. -/
def unlockSweaterPoll (s : Store) : Store :=
  notifyListeners
    { s with roomState := { s.roomState with sweaterPollUnlocked := true } }

/-- `submitPollVote(voterName, votedFor)`: reject a second vote by the same
voter, otherwise record it. -/
def submitPollVote (voterName votedFor : String) (s : Store) : Bool × Store :=
  if s.pollVotes.any (fun e => e.1 = voterName) then (false, s)
  else (true, { s with pollVotes := s.pollVotes ++ [(voterName, votedFor)] })

/-- `submitSweaterVote(voterName, votedFor)`. -/
def submitSweaterVote (voterName votedFor : String) (s : Store) :
    Bool × Store :=
  if s.sweaterVotes.any (fun e => e.1 = voterName) then (false, s)
  else
    (true, { s with sweaterVotes := s.sweaterVotes ++ [(voterName, votedFor)] })

/-- The tally loop body `results[votedFor] = (results[votedFor] || 0) + 1`. -/
def tallyStep (results : String → Option Int) (votedFor : String) :
    String → Option Int :=
  fun k => if k = votedFor then some ((results votedFor).getD 0 + 1)
           else results k

/-- `getPollResults()`: counts of poll votes grouped by `votedFor`. -/
def getPollResults (s : Store) : String → Option Int :=
  s.pollVotes.foldl (fun res e => tallyStep res e.2) (fun _ => none)

/-- `getSweaterPollResults()`. -/
def getSweaterPollResults (s : Store) : String → Option Int :=
  s.sweaterVotes.foldl (fun res e => tallyStep res e.2) (fun _ => none)

/-- `reset()`: restore the initial room state and clear every collection,
then notify. -/
def reset (s : Store) : Store :=
  notifyListeners
    { s with
      roomState := initialRoomState
      activePlayers := []
      submissions := []
      actualSantas := []
      pollVotes := []
      sweaterVotes := [] }

/-- One public store operation, with `Date.now()` and the shuffle made
explicit. -/
inductive Op where
  | register (name : String)
  | start (shuffle : List String → List String) (now : Int)
  | next (now : Int)
  | setTimer (seconds : Int)
  | submit (playerName : String) (roundIndex : Nat) (guessedSantas : List String)
      (gameMode : GameMode) (now : Int)
  | setSanta (roundIndex : Nat) (name : String)
  | unlockR
  | unlockP
  | unlockS
  | doReset

/-- Apply one operation to the store (submission results are discarded: the
caller only keeps the boolean). -/
def applyOp (s : Store) : Op → Store
  | .register name => registerPlayer name s
  | .start shuffle now => startGame shuffle now s
  | .next now => nextRecipient now s
  | .setTimer seconds => setTimerDuration seconds s
  | .submit p r gs gm now => (submitGuess p r gs gm now s).2
  | .setSanta r name => setActualSanta r name s
  | .unlockR => unlockResults s
  | .unlockP => unlockPoll s
  | .unlockS => unlockSweaterPoll s
  | .doReset => reset s

/-- Well-formedness of an operation: a `start` must carry a genuine shuffle,
i.e. one that reorders its input (which JavaScript's in-place `sort` always
does, even under an inconsistent comparator). -/
def OpOK : Op → Prop
  | .start shuffle _ => ∀ l, (shuffle l).Perm l
  | _ => True

/-- Whether an operation is a `startGame` call. -/
def isStartOp : Op → Prop
  | .start _ _ => True
  | _ => False

/-- Run a sequence of operations from a fresh store. -/
def run (ops : List Op) : Store :=
  ops.foldl applyOp initialStore

/-- The externally observable content of the store: everything except the
listener-notification counter. -/
def observable (s : Store) :
    RoomState × List String × List (String × Submission) ×
      List (Nat × String) × List (String × String) × List (String × String) :=
  (s.roomState, s.activePlayers, s.submissions, s.actualSantas, s.pollVotes,
    s.sweaterVotes)

/-- Key well-formedness of the submissions map: every stored entry's key is
the `` `${playerName}-${roundIndex}` `` of the submission it holds.  This holds
in every reachable store since `submitGuess` is the only writer. -/
def KeyInv (s : Store) : Prop :=
  ∀ e ∈ s.submissions, e.1 = mkKey e.2.playerName e.2.roundIndex

/-- Whether a submission row is awarded points by the scoring loop: its round
has a truthy actual Santa that is a member of its guess list. -/
def scoresPoints (actualSantas : Nat → Option String) (sub : SubmissionRow) :
    Bool :=
  match actualSantas sub.round_index with
  | none => false
  | some st => if st = "" then false else decide (st ∈ guessesOf sub)

/-- Fold `nextRecipient` over a list of call timestamps. -/
def nextTimes (ts : List Int) (s : Store) : Store :=
  ts.foldl (fun st t => nextRecipient t st) s

/-- The started-phase index invariant: `currentIndex` stays strictly inside
`openingOrder` once the game is started. -/
def StoreInv (s : Store) : Prop :=
  s.roomState.isStarted = true →
    s.roomState.currentIndex < s.roomState.openingOrder.length

/-- Decimal digit characters of `n`, most significant first: the list built by
`Nat.toDigitsCore` at base 10 once the fuel suffices. -/
def digs (n : Nat) : List Char :=
  if _h : n < 10 then [Nat.digitChar n]
  else digs (n / 10) ++ [Nat.digitChar (n % 10)]
decreasing_by exact Nat.div_lt_self (by omega) (by omega)

/-- A started store reached by registering Alice and Bob and starting with the
identity shuffle; used to exhibit the behaviour of a second `startGame`. -/
def startedStore : Store :=
  run [Op.register "Alice", Op.register "Bob", Op.start id 0]

/-! ## Helper lemmas: the submission key is injective in (player, round) -/

lemma digs_lt (n : Nat) (h : n < 10) : digs n = [Nat.digitChar n] := by
  rw [digs, dif_pos h]

lemma digs_ge (n : Nat) (h : ¬ n < 10) :
    digs n = digs (n / 10) ++ [Nat.digitChar (n % 10)] := by
  rw [digs]; exact dif_neg h

lemma toDigitsCore_eq (fuel : Nat) :
    ∀ (n : Nat) (ds : List Char), n < fuel →
      Nat.toDigitsCore 10 fuel n ds = digs n ++ ds := by
  induction fuel with
  | zero => intro n ds h; omega
  | succ fuel ih =>
    intro n ds h
    have hstep : Nat.toDigitsCore 10 (fuel + 1) n ds =
        (if n / 10 = 0 then Nat.digitChar (n % 10) :: ds
         else Nat.toDigitsCore 10 fuel (n / 10)
           (Nat.digitChar (n % 10) :: ds)) := rfl
    rw [hstep]
    by_cases h10 : n / 10 = 0
    · have hn : n < 10 := by omega
      rw [if_pos h10, digs_lt n hn, Nat.mod_eq_of_lt hn]
      rfl
    · have hge : ¬ n < 10 := by omega
      have hlt : n / 10 < fuel := by
        have hd : n / 10 < n := Nat.div_lt_self (by omega) (by omega)
        omega
      rw [if_neg h10, ih (n / 10) _ hlt, digs_ge n hge, List.append_assoc]
      rfl

lemma repr_data (n : Nat) : (Nat.repr n).data = digs n := by
  have h : Nat.repr n = (Nat.toDigitsCore 10 (n + 1) n []).asString := rfl
  rw [h, toDigitsCore_eq (n + 1) n [] (Nat.lt_succ_self n), List.append_nil]
  rfl

lemma digitChar_ne_dash (m : Nat) : Nat.digitChar m ≠ '-' := by
  match m with
  | 0 | 1 | 2 | 3 | 4 | 5 | 6 | 7 | 8 | 9 | 10 | 11 | 12 | 13 | 14 | 15 =>
    decide
  | n + 16 =>
    have h : Nat.digitChar (n + 16) = '*' := rfl
    rw [h]; decide

lemma digitChar_inj_lt : ∀ a < 10, ∀ b < 10,
    Nat.digitChar a = Nat.digitChar b → a = b := by decide

lemma digs_ne_nil (n : Nat) : digs n ≠ [] := by
  by_cases h : n < 10
  · rw [digs_lt n h]; simp
  · rw [digs_ge n h]; simp

lemma digs_ne_dash (n : Nat) : ∀ c ∈ digs n, c ≠ '-' := by
  induction n using Nat.strong_induction_on with
  | _ n ih =>
    by_cases h : n < 10
    · rw [digs_lt n h]
      intro c hc
      simp at hc
      subst hc
      exact digitChar_ne_dash n
    · rw [digs_ge n h]
      intro c hc
      rcases List.mem_append.1 hc with h1 | h2
      · exact ih (n / 10) (Nat.div_lt_self (by omega) (by omega)) c h1
      · simp at h2
        subst h2
        exact digitChar_ne_dash (n % 10)

lemma digs_inj (a : Nat) : ∀ b : Nat, digs a = digs b → a = b := by
  induction a using Nat.strong_induction_on with
  | _ a ih =>
    intro b h
    by_cases ha : a < 10 <;> by_cases hb : b < 10
    · rw [digs_lt a ha, digs_lt b hb] at h
      exact digitChar_inj_lt a ha b hb (by simpa using h)
    · rw [digs_lt a ha, digs_ge b hb] at h
      have hl := congrArg List.length h
      rw [List.length_append] at hl
      simp only [List.length_singleton] at hl
      have h0 : (digs (b / 10)).length = 0 := by omega
      exact absurd (List.length_eq_zero.1 h0) (digs_ne_nil (b / 10))
    · rw [digs_ge a ha, digs_lt b hb] at h
      have hl := congrArg List.length h
      rw [List.length_append] at hl
      simp only [List.length_singleton] at hl
      have h0 : (digs (a / 10)).length = 0 := by omega
      exact absurd (List.length_eq_zero.1 h0) (digs_ne_nil (a / 10))
    · rw [digs_ge a ha, digs_ge b hb] at h
      have hsp := List.append_inj' h (by simp)
      have h1 : a / 10 = b / 10 :=
        ih (a / 10) (Nat.div_lt_self (by omega) (by omega)) (b / 10) hsp.1
      have h2 : a % 10 = b % 10 :=
        digitChar_inj_lt (a % 10) (Nat.mod_lt a (by omega)) (b % 10)
          (Nat.mod_lt b (by omega)) (by simpa using hsp.2)
      omega

lemma append_cons_inj {c : Char} :
    ∀ (l1 l2 t1 t2 : List Char), l1 ++ c :: t1 = l2 ++ c :: t2 →
      c ∉ t1 → c ∉ t2 → l1 = l2 ∧ t1 = t2 := by
  intro l1
  induction l1 with
  | nil =>
    intro l2 t1 t2 h h1 h2
    cases l2 with
    | nil => simpa using h
    | cons b l2' =>
      simp at h
      exact absurd (h.2 ▸ List.mem_append_right l2' (List.mem_cons_self c t2)) h1
  | cons a l1' ih =>
    intro l2 t1 t2 h h1 h2
    cases l2 with
    | nil =>
      simp at h
      exact absurd (h.2 ▸ List.mem_append_right l1' (List.mem_cons_self c t1)) h2
    | cons b l2' =>
      simp at h
      obtain ⟨rfl, h'⟩ := h
      obtain ⟨hl, ht⟩ := ih l2' t1 t2 h' h1 h2
      exact ⟨by rw [hl], ht⟩

lemma mkKey_data (p : String) (r : Nat) :
    (mkKey p r).data = p.data ++ '-' :: digs r := by
  show ((p ++ "-") ++ Nat.repr r).data = _
  rw [String.data_append, String.data_append, repr_data, List.append_assoc]
  rfl

lemma mkKey_inj {p1 p2 : String} {r1 r2 : Nat}
    (h : mkKey p1 r1 = mkKey p2 r2) : p1 = p2 ∧ r1 = r2 := by
  have hd := congrArg String.data h
  rw [mkKey_data, mkKey_data] at hd
  have hsp := append_cons_inj p1.data p2.data (digs r1) (digs r2) hd
    (fun hc => digs_ne_dash r1 '-' hc rfl)
    (fun hc => digs_ne_dash r2 '-' hc rfl)
  refine ⟨?_, digs_inj r1 r2 hsp.2⟩
  cases p1; cases p2; exact congrArg String.mk hsp.1

/-! ## Helper lemmas: scoring -/

lemma calculatePoints_append (subs : List SubmissionRow) (sub : SubmissionRow)
    (santas : Nat → Option String) (order : List String) :
    calculatePoints (subs ++ [sub]) santas order =
      scoreStep santas order (calculatePoints subs santas order) sub := by
  simp [calculatePoints, List.foldl_append]

lemma scoreStep_eq (santas : Nat → Option String) (order : List String)
    (pts : Scores) (sub : SubmissionRow) :
    scoreStep santas order pts sub =
      if scoresPoints santas sub then
        addPoints pts sub.player_name (pointsToAdd order sub)
      else pts := by
  unfold scoreStep scoresPoints
  cases hs : santas sub.round_index with
  | none => simp
  | some st =>
    by_cases h1 : st = "" <;> by_cases h2 : st ∈ guessesOf sub <;>
      simp [h1, h2]

lemma addPoints_self (pts : Scores) (name : String) (add : Int) :
    addPoints pts name add name = some ((pts name).getD 0 + add) := by
  simp [addPoints]

lemma addPoints_other (pts : Scores) (name : String) (add : Int) (q : String)
    (h : q ≠ name) : addPoints pts name add q = pts q := by
  simp [addPoints, h]

lemma pointsToAdd_pos (order : List String) (sub : SubmissionRow) :
    1 ≤ pointsToAdd order sub := by
  unfold pointsToAdd
  split_ifs <;> norm_num

lemma scoreStep_award (santas : Nat → Option String) (order : List String)
    (pts : Scores) (sub : SubmissionRow) (st : String)
    (hs : santas sub.round_index = some st) (hne : st ≠ "")
    (hmem : st ∈ guessesOf sub) :
    scoreStep santas order pts sub =
      addPoints pts sub.player_name (pointsToAdd order sub) := by
  unfold scoreStep
  rw [hs]
  simp [hne, hmem]

/-- C1: for the scoring function, a submission whose round has a declared
(truthy) actual Santa appearing in its guess list adds exactly 3 points to the
submitter when the submitter is the round's recipient and the mode is `risk`
or absent, exactly 1 when the submitter is the recipient in `safe` mode, and
exactly 1 for a non-recipient regardless of mode; no other player's score
moves. -/
theorem c1_calculatePoints_award (subs : List SubmissionRow)
    (santas : Nat → Option String) (order : List String) (sub : SubmissionRow)
    (st : String) (hs : santas sub.round_index = some st) (hne : st ≠ "")
    (hmem : st ∈ guessesOf sub) :
    (isRecipient order sub = true →
      (sub.game_mode = some GameMode.risk ∨ sub.game_mode = none) →
      calculatePoints (subs ++ [sub]) santas order sub.player_name =
        some ((calculatePoints subs santas order sub.player_name).getD 0 + 3)) ∧
    (isRecipient order sub = true → sub.game_mode = some GameMode.safe →
      calculatePoints (subs ++ [sub]) santas order sub.player_name =
        some ((calculatePoints subs santas order sub.player_name).getD 0 + 1)) ∧
    (isRecipient order sub = false →
      calculatePoints (subs ++ [sub]) santas order sub.player_name =
        some ((calculatePoints subs santas order sub.player_name).getD 0 + 1)) ∧
    (∀ q, q ≠ sub.player_name →
      calculatePoints (subs ++ [sub]) santas order q =
        calculatePoints subs santas order q) := by
  rw [calculatePoints_append,
    scoreStep_award santas order _ sub st hs hne hmem]
  refine ⟨?_, ?_, ?_, ?_⟩
  · intro hrec hm
    have hmode : gameModeOf sub = GameMode.risk := by
      rcases hm with hm | hm <;> simp [gameModeOf, hm]
    rw [addPoints_self]
    simp [pointsToAdd, hrec, hmode]
  · intro hrec hm
    have hmode : gameModeOf sub = GameMode.safe := by simp [gameModeOf, hm]
    rw [addPoints_self]
    simp [pointsToAdd, hrec, hmode]
  · intro hrec
    rw [addPoints_self]
    simp [pointsToAdd, hrec]
  · intro q hq
    exact addPoints_other _ _ _ q hq

/-- Witness for C1: with opening order `["Alice", "Bob"]`, actual Santa of
round 0 declared as `"Bob"`, recipient Alice submitting a risk-mode guess list
containing `"Bob"` scores exactly 3 points. -/
theorem c1_calculatePoints_award_witness :
    calculatePoints
        ([] ++ [{ player_name := "Alice", round_index := 0,
                  guessed_santa_name := "", guessed_santas := some ["Bob"],
                  game_mode := some GameMode.risk }])
        (fun r => if r = 0 then some "Bob" else none) ["Alice", "Bob"]
        "Alice" = some 3 := by
  have h := (c1_calculatePoints_award []
      (fun r => if r = 0 then some "Bob" else none) ["Alice", "Bob"]
      { player_name := "Alice", round_index := 0, guessed_santa_name := "",
        guessed_santas := some ["Bob"], game_mode := some GameMode.risk }
      "Bob" rfl (by decide) (by decide)).1 (by decide) (Or.inl rfl)
  rw [h]
  decide

lemma initPoints_go (p : String) :
    ∀ (l : List String) (acc : Scores),
      (l.foldl (fun pts q => fun k => if k = q then some 0 else pts k) acc) p =
        if p ∈ l then some 0 else acc p := by
  intro l
  induction l with
  | nil => intro acc; simp
  | cons q l ih =>
    intro acc
    rw [List.foldl_cons, ih]
    by_cases hp : p ∈ l <;> by_cases hq : p = q <;> simp [hp, hq]

lemma initPoints_mem (order : List String) (p : String) (h : p ∈ order) :
    initPoints order p = some 0 := by
  unfold initPoints
  rw [initPoints_go]
  simp [h]

lemma scoreStep_preserve (santas : Nat → Option String) (order : List String)
    (pts : Scores) (sub : SubmissionRow) (p : String)
    (h : ∃ n, pts p = some n ∧ 0 ≤ n) :
    ∃ n, scoreStep santas order pts sub p = some n ∧ 0 ≤ n := by
  rw [scoreStep_eq]
  split_ifs with hsp
  · by_cases hq : p = sub.player_name
    · obtain ⟨n, hn, hn0⟩ := h
      rw [hq, addPoints_self]
      refine ⟨(pts sub.player_name).getD 0 + pointsToAdd order sub, rfl, ?_⟩
      have hpos := pointsToAdd_pos order sub
      rw [hq] at hn
      rw [hn]
      simp only [Option.getD_some]
      omega
    · rw [addPoints_other _ _ _ _ hq]
      exact h
  · exact h

lemma foldl_scoreStep_someNonneg (santas : Nat → Option String)
    (order : List String) (p : String) :
    ∀ (subs : List SubmissionRow) (pts : Scores),
      (∃ n, pts p = some n ∧ 0 ≤ n) →
      ∃ n, (subs.foldl (scoreStep santas order) pts) p = some n ∧ 0 ≤ n := by
  intro subs
  induction subs with
  | nil => intro pts h; simpa using h
  | cons sub rest ih =>
    intro pts h
    rw [List.foldl_cons]
    exact ih _ (scoreStep_preserve santas order pts sub p h)

lemma scoreStep_nonplayer (santas : Nat → Option String) (order : List String)
    (pts : Scores) (sub : SubmissionRow) (p : String)
    (h : sub.player_name = p → scoresPoints santas sub = false) :
    scoreStep santas order pts sub p = pts p := by
  rw [scoreStep_eq]
  split_ifs with hsp
  · by_cases hq : sub.player_name = p
    · rw [h hq] at hsp
      exact absurd hsp (by simp)
    · exact addPoints_other _ _ _ p (fun hh => hq hh.symm)
  · rfl

lemma foldl_scoreStep_frame (santas : Nat → Option String)
    (order : List String) (p : String) :
    ∀ (subs : List SubmissionRow) (pts : Scores),
      (∀ sub ∈ subs, sub.player_name = p → scoresPoints santas sub = false) →
      (subs.foldl (scoreStep santas order) pts) p = pts p := by
  intro subs
  induction subs with
  | nil => intro pts _; rfl
  | cons sub rest ih =>
    intro pts h
    rw [List.foldl_cons, ih _ (fun x hx => h x (List.mem_cons_of_mem sub hx)),
      scoreStep_nonplayer santas order pts sub p (h sub (List.mem_cons_self sub rest))]

/-- C5: a submission whose round index has no entry in the actual-Santa map
contributes nothing to any player's score; every name in `openingOrder` is
present in the output with a non-negative score; and a participant none of
whose submissions score points (in particular one with no submissions) is
mapped to exactly 0. -/
theorem c5_calculatePoints_shape (santas : Nat → Option String)
    (order : List String) :
    (∀ (subs1 subs2 : List SubmissionRow) (sub : SubmissionRow),
      santas sub.round_index = none → ∀ q,
        calculatePoints (subs1 ++ sub :: subs2) santas order q =
          calculatePoints (subs1 ++ subs2) santas order q) ∧
    (∀ (subs : List SubmissionRow) (p : String), p ∈ order →
      ∃ n, calculatePoints subs santas order p = some n ∧ 0 ≤ n) ∧
    (∀ (subs : List SubmissionRow) (p : String), p ∈ order →
      (∀ sub ∈ subs, sub.player_name = p → scoresPoints santas sub = false) →
      calculatePoints subs santas order p = some 0) := by
  refine ⟨?_, ?_, ?_⟩
  · intro subs1 subs2 sub hnone q
    unfold calculatePoints
    rw [List.foldl_append, List.foldl_cons, List.foldl_append]
    have hskip : scoreStep santas order
        (subs1.foldl (scoreStep santas order) (initPoints order)) sub =
        subs1.foldl (scoreStep santas order) (initPoints order) := by
      rw [scoreStep_eq]
      simp [scoresPoints, hnone]
    rw [hskip]
  · intro subs p hp
    exact foldl_scoreStep_someNonneg santas order p subs (initPoints order)
      ⟨0, initPoints_mem order p hp, le_refl 0⟩
  · intro subs p hp h
    unfold calculatePoints
    rw [foldl_scoreStep_frame santas order p subs (initPoints order) h]
    exact initPoints_mem order p hp

/-- Witness for C5: with opening order `["Alice", "Bob"]` and only round 0's
Santa declared, a round-5 submission is ignored, Alice is present with a
non-negative score, and Bob with no submissions scores exactly 0. -/
theorem c5_calculatePoints_shape_witness :
    (calculatePoints
        ([] ++ ({ player_name := "Alice", round_index := 5,
                  guessed_santa_name := "Bob", guessed_santas := none,
                  game_mode := none } : SubmissionRow) :: [])
        (fun r => if r = 0 then some "Bob" else none) ["Alice", "Bob"]
        "Alice" =
      calculatePoints ([] ++ [])
        (fun r => if r = 0 then some "Bob" else none) ["Alice", "Bob"]
        "Alice") ∧
    (∃ n, calculatePoints []
        (fun r => if r = 0 then some "Bob" else none) ["Alice", "Bob"]
        "Alice" = some n ∧ 0 ≤ n) ∧
    calculatePoints []
        (fun r => if r = 0 then some "Bob" else none) ["Alice", "Bob"]
        "Bob" = some 0 := by
  have h := c5_calculatePoints_shape
    (fun r => if r = 0 then some "Bob" else none) ["Alice", "Bob"]
  exact ⟨h.1 [] []
      { player_name := "Alice", round_index := 5, guessed_santa_name := "Bob",
        guessed_santas := none, game_mode := none } (by decide) "Alice",
    h.2.1 [] "Alice" (by decide), h.2.2 [] "Bob" (by decide) (by simp)⟩

/-! ## Helper lemmas: submissions -/

lemma submitGuess_dup (s : Store) (p : String) (r : Nat) (gs : List String)
    (gm : GameMode) (now : Int)
    (h : (s.submissions.any (fun e => e.1 = mkKey p r)) = true) :
    submitGuess p r gs gm now s = (false, s) := by
  simp only [submitGuess, h]
  rfl

lemma no_pair_no_key (s : Store) (p : String) (r : Nat) (hinv : KeyInv s)
    (hno : ¬ ∃ e ∈ s.submissions, e.2.playerName = p ∧ e.2.roundIndex = r) :
    (s.submissions.any (fun e => e.1 = mkKey p r)) = false := by
  rw [List.any_eq_false]
  intro e he
  simp only [decide_eq_true_eq]
  intro hk
  have hkey := hinv e he
  rw [hkey] at hk
  obtain ⟨hp, hr⟩ := mkKey_inj hk
  exact hno ⟨e, he, hp, hr⟩

lemma submitGuess_new (s : Store) (p : String) (r : Nat) (gs : List String)
    (gm : GameMode) (now : Int) (hinv : KeyInv s)
    (hno : ¬ ∃ e ∈ s.submissions, e.2.playerName = p ∧ e.2.roundIndex = r) :
    submitGuess p r gs gm now s =
      (true, { s with submissions := s.submissions ++
        [(mkKey p r, { playerName := p, roundIndex := r,
                       guessedSantaName := gs.headD "", guessedSantas := gs,
                       gameMode := gm, timestamp := now })] }) := by
  have hkey := no_pair_no_key s p r hinv hno
  simp only [submitGuess, hkey]
  rfl

/-- C2: on a store whose submission keys are well formed, if no submission is
stored for `(p, r)` then `submitGuess` returns `true` and appends exactly one
submission — the one just built — and the stored submissions for `(p, r)` are
exactly that entry; a second call for the same pair returns `false` and leaves
the store untouched, so the first submission persists unchanged. -/
theorem c2_submitGuess_once (s : Store) (p : String) (r : Nat)
    (gs gs' : List String) (gm gm' : GameMode) (now now' : Int)
    (hinv : KeyInv s)
    (hno : ¬ ∃ e ∈ s.submissions, e.2.playerName = p ∧ e.2.roundIndex = r) :
    (submitGuess p r gs gm now s).1 = true ∧
    (submitGuess p r gs gm now s).2.submissions =
      s.submissions ++ [(mkKey p r,
        { playerName := p, roundIndex := r, guessedSantaName := gs.headD "",
          guessedSantas := gs, gameMode := gm, timestamp := now })] ∧
    ((submitGuess p r gs gm now s).2.submissions.filter
        (fun e => e.2.playerName = p ∧ e.2.roundIndex = r)) =
      [(mkKey p r,
        { playerName := p, roundIndex := r, guessedSantaName := gs.headD "",
          guessedSantas := gs, gameMode := gm, timestamp := now })] ∧
    (submitGuess p r gs' gm' now' (submitGuess p r gs gm now s).2).1 = false ∧
    (submitGuess p r gs' gm' now' (submitGuess p r gs gm now s).2).2 =
      (submitGuess p r gs gm now s).2 := by
  have h1 := submitGuess_new s p r gs gm now hinv hno
  have hfilter : (s.submissions.filter
      (fun e => e.2.playerName = p ∧ e.2.roundIndex = r)) = [] := by
    rw [List.filter_eq_nil_iff]
    intro e he
    simp only [decide_eq_true_eq, not_and]
    intro hp hr
    exact hno ⟨e, he, hp, hr⟩
  have h2cond : ((submitGuess p r gs gm now s).2.submissions.any
      (fun e => e.1 = mkKey p r)) = true := by
    rw [h1]
    simp
  have h2 := submitGuess_dup (submitGuess p r gs gm now s).2 p r gs' gm' now'
    h2cond
  refine ⟨by rw [h1], by rw [h1], ?_, by rw [h2], by rw [h2]⟩
  rw [h1]
  simp only [List.filter_append, hfilter, List.nil_append, List.filter,
    decide_eq_true_eq]
  simp

/-- Witness for C2: from a fresh store, Alice's first round-0 guess is
accepted and a second one is rejected. -/
theorem c2_submitGuess_once_witness :
    (submitGuess "Alice" 0 ["Bob"] GameMode.risk 0 initialStore).1 = true ∧
    (submitGuess "Alice" 0 ["Carol"] GameMode.safe 1
      (submitGuess "Alice" 0 ["Bob"] GameMode.risk 0 initialStore).2).1 =
      false := by
  have h := c2_submitGuess_once initialStore "Alice" 0 ["Bob"] ["Carol"]
    GameMode.risk GameMode.safe 0 1
    (by intro e he; simp [initialStore] at he)
    (by simp [initialStore])
  exact ⟨h.1, h.2.2.2.1⟩

/-! ## Helper lemmas: room-state transitions -/

lemma getCurrentRecipient_at_zero (s : Store)
    (h : s.roomState.isStarted = true) (h0 : s.roomState.currentIndex = 0) :
    getCurrentRecipient s = s.roomState.openingOrder.head? := by
  unfold getCurrentRecipient
  rw [h, h0]
  cases ho : s.roomState.openingOrder with
  | nil => simp
  | cons a l => simp

/-- C3: immediately after `startGame()`, `openingOrder` is a permutation of the
registered active players when at least one registered (so, for a
duplicate-free registration list, no duplicates and no omissions), otherwise a
permutation of the fixed roster `ALL_PLAYERS`; `currentIndex` is 0,
`isStarted` is true, the three unlock flags are false, and
`getCurrentRecipient()` returns the first element of `openingOrder`. -/
theorem c3_startGame_spec (shuffle : List String → List String) (now : Int)
    (s : Store) (hsh : ∀ l, (shuffle l).Perm l) :
    (s.activePlayers ≠ [] →
      ((startGame shuffle now s).roomState.openingOrder).Perm
        s.activePlayers) ∧
    (s.activePlayers = [] →
      ((startGame shuffle now s).roomState.openingOrder).Perm ALL_PLAYERS) ∧
    (s.activePlayers.Nodup →
      (startGame shuffle now s).roomState.openingOrder.Nodup) ∧
    (startGame shuffle now s).roomState.currentIndex = 0 ∧
    (startGame shuffle now s).roomState.isStarted = true ∧
    (startGame shuffle now s).roomState.resultsUnlocked = false ∧
    (startGame shuffle now s).roomState.pollUnlocked = false ∧
    (startGame shuffle now s).roomState.sweaterPollUnlocked = false ∧
    getCurrentRecipient (startGame shuffle now s) =
      (startGame shuffle now s).roomState.openingOrder.head? := by
  have horder : (startGame shuffle now s).roomState.openingOrder =
      shuffle (if s.activePlayers.length > 0 then s.activePlayers
               else ALL_PLAYERS) := rfl
  have hperm1 : s.activePlayers ≠ [] →
      ((startGame shuffle now s).roomState.openingOrder).Perm
        s.activePlayers := by
    intro h
    rw [horder, if_pos (List.length_pos.2 h)]
    exact hsh _
  have hperm2 : s.activePlayers = [] →
      ((startGame shuffle now s).roomState.openingOrder).Perm ALL_PLAYERS := by
    intro h
    rw [horder, h]
    exact hsh _
  refine ⟨hperm1, hperm2, ?_, rfl, rfl, rfl, rfl, rfl,
    getCurrentRecipient_at_zero _ rfl rfl⟩
  intro hnd
  by_cases h : s.activePlayers = []
  · exact ((hperm2 h).nodup_iff).2 (by decide)
  · exact ((hperm1 h).nodup_iff).2 hnd

/-- Witness for C3: starting a fresh store (no registrations) with the
identity shuffle yields the fallback roster, flag resets, and Alice as the
first recipient. -/
theorem c3_startGame_spec_witness :
    (startGame id 7 initialStore).roomState.isStarted = true ∧
    (startGame id 7 initialStore).roomState.currentIndex = 0 ∧
    ((startGame id 7 initialStore).roomState.openingOrder).Perm ALL_PLAYERS ∧
    getCurrentRecipient (startGame id 7 initialStore) = some "Alice" := by
  have h := c3_startGame_spec id 7 initialStore (fun l => List.Perm.refl l)
  refine ⟨h.2.2.2.2.1, h.2.2.2.1, h.2.1 rfl, ?_⟩
  rw [h.2.2.2.2.2.2.2.2]
  rfl

lemma nextRecipient_step (now : Int) (s : Store)
    (h : s.roomState.isStarted = true)
    (hle : s.roomState.currentIndex ≤ s.roomState.openingOrder.length - 1) :
    (nextRecipient now s).roomState.isStarted = true ∧
    (nextRecipient now s).roomState.openingOrder =
      s.roomState.openingOrder ∧
    (nextRecipient now s).roomState.currentIndex =
      min (s.roomState.currentIndex + 1)
        (s.roomState.openingOrder.length - 1) := by
  unfold nextRecipient
  rw [if_neg (by simp [h])]
  by_cases hc : (s.roomState.currentIndex : Int) ≥
      (s.roomState.openingOrder.length : Int) - 1
  · rw [if_pos hc]
    exact ⟨h, rfl, by omega⟩
  · rw [if_neg hc]
    refine ⟨h, rfl, ?_⟩
    show s.roomState.currentIndex + 1 = _
    omega

lemma nextTimes_cons (t : Int) (ts : List Int) (s : Store) :
    nextTimes (t :: ts) s = nextTimes ts (nextRecipient t s) := rfl

lemma nextTimes_spec : ∀ (ts : List Int) (s : Store),
    s.roomState.isStarted = true →
    s.roomState.currentIndex ≤ s.roomState.openingOrder.length - 1 →
    (nextTimes ts s).roomState.isStarted = true ∧
    (nextTimes ts s).roomState.openingOrder = s.roomState.openingOrder ∧
    (nextTimes ts s).roomState.currentIndex =
      min (s.roomState.currentIndex + ts.length)
        (s.roomState.openingOrder.length - 1) := by
  intro ts
  induction ts with
  | nil =>
    intro s h hle
    refine ⟨h, rfl, ?_⟩
    simp only [nextTimes, List.foldl_nil, List.length_nil]
    omega
  | cons t ts ih =>
    intro s h hle
    have h1 := nextRecipient_step t s h hle
    have hle' : (nextRecipient t s).roomState.currentIndex ≤
        (nextRecipient t s).roomState.openingOrder.length - 1 := by
      rw [h1.2.2, h1.2.1]
      omega
    have h2 := ih (nextRecipient t s) h1.1 hle'
    rw [nextTimes_cons]
    refine ⟨h2.1, by rw [h2.2.1, h1.2.1], ?_⟩
    rw [h2.2.2, h1.2.2, h1.2.1, List.length_cons]
    omega

/-- C4: `nextRecipient()` is a global no-op when the game is not started,
leaves `currentIndex` unchanged at the last index, and otherwise bumps
`currentIndex` by exactly one and re-stamps `roundStartedAt`; hence from index
0, `len(openingOrder) - 1` calls land on the last index and one further call
leaves `currentIndex` there. -/
theorem c4_nextRecipient_spec (now : Int) (s : Store) :
    (s.roomState.isStarted = false → nextRecipient now s = s) ∧
    (s.roomState.isStarted = true →
      s.roomState.currentIndex = s.roomState.openingOrder.length - 1 →
      (nextRecipient now s).roomState.currentIndex =
        s.roomState.currentIndex) ∧
    (s.roomState.isStarted = true →
      s.roomState.currentIndex + 1 < s.roomState.openingOrder.length →
      (nextRecipient now s).roomState.currentIndex =
        s.roomState.currentIndex + 1 ∧
      (nextRecipient now s).roomState.roundStartedAt = some now) ∧
    (∀ ts : List Int, s.roomState.isStarted = true →
      s.roomState.currentIndex = 0 →
      ts.length = s.roomState.openingOrder.length - 1 →
      (nextTimes ts s).roomState.currentIndex =
        s.roomState.openingOrder.length - 1 ∧
      ∀ t : Int, (nextRecipient t (nextTimes ts s)).roomState.currentIndex =
        s.roomState.openingOrder.length - 1) := by
  refine ⟨?_, ?_, ?_, ?_⟩
  · intro h
    simp [nextRecipient, h]
  · intro h hidx
    rw [(nextRecipient_step now s h (le_of_eq hidx)).2.2, hidx]
    omega
  · intro h hlt
    unfold nextRecipient
    rw [if_neg (by simp [h]), if_neg (by omega)]
    exact ⟨rfl, rfl⟩
  · intro ts h h0 hlen
    have hall := nextTimes_spec ts s h (by omega)
    constructor
    · rw [hall.2.2, h0, hlen]
      omega
    · intro t
      have hstep := nextRecipient_step t (nextTimes ts s) hall.1
        (by rw [hall.2.2, hall.2.1]; omega)
      rw [hstep.2.2, hall.2.1, hall.2.2, h0, hlen]
      omega

/-- Witness for C4: on the two-player started store, one advance moves the
index to 1 and stamps the time; at the last index a further advance is a
no-op; on a fresh (unstarted) store the call is a global no-op. -/
theorem c4_nextRecipient_spec_witness :
    nextRecipient 3 initialStore = initialStore ∧
    (nextRecipient 1 startedStore).roomState.currentIndex = 1 ∧
    (nextRecipient 1 startedStore).roomState.roundStartedAt = some 1 ∧
    (nextRecipient 4 (nextRecipient 1 startedStore)).roomState.currentIndex =
      (nextRecipient 1 startedStore).roomState.currentIndex ∧
    (nextTimes [5] startedStore).roomState.currentIndex = 1 ∧
    (nextRecipient 6 (nextTimes [5] startedStore)).roomState.currentIndex =
      1 := by
  have ha := c4_nextRecipient_spec 3 initialStore
  have hb := c4_nextRecipient_spec 1 startedStore
  have hc := c4_nextRecipient_spec 4 (nextRecipient 1 startedStore)
  have hstep := hb.2.2.1 (by decide) (by decide)
  have hiter := (c4_nextRecipient_spec 5 startedStore).2.2.2 [5] (by decide)
    (by decide) (by decide)
  refine ⟨ha.1 rfl, ?_, ?_, ?_, ?_, ?_⟩
  · rw [hstep.1]
    decide
  · exact hstep.2
  · exact hc.2.1 (by decide) (by decide)
  · rw [hiter.1]
    decide
  · rw [hiter.2 6]
    decide

lemma roomState_eq_inv {s t : Store} (h : t.roomState = s.roomState)
    (hinv : StoreInv s) : StoreInv t := by
  intro hst
  rw [h] at hst
  rw [h]
  exact hinv hst

lemma submitGuess_roomState (p : String) (r : Nat) (gs : List String)
    (gm : GameMode) (now : Int) (s : Store) :
    (submitGuess p r gs gm now s).2.roomState = s.roomState := by
  simp only [submitGuess]
  split_ifs <;> rfl

lemma registerPlayer_roomState (name : String) (s : Store) :
    (registerPlayer name s).roomState = s.roomState := by
  unfold registerPlayer
  split_ifs <;> rfl

lemma applyOp_inv (s : Store) (op : Op) (hok : OpOK op) (hinv : StoreInv s) :
    StoreInv (applyOp s op) := by
  cases op with
  | register name =>
    exact roomState_eq_inv (registerPlayer_roomState name s) hinv
  | start shuffle now =>
    intro _
    show 0 < (shuffle _).length
    rw [(hok _).length_eq]
    by_cases hl : s.activePlayers.length > 0
    · rw [if_pos hl]
      omega
    · rw [if_neg hl]
      decide
  | next now =>
    show StoreInv (nextRecipient now s)
    unfold nextRecipient
    split_ifs with h1 h2
    · exact hinv
    · exact hinv
    · intro _
      show s.roomState.currentIndex + 1 < s.roomState.openingOrder.length
      omega
  | setTimer seconds => exact fun h => hinv h
  | submit p r gs gm now =>
    exact roomState_eq_inv (submitGuess_roomState p r gs gm now s) hinv
  | setSanta r name => exact fun h => hinv h
  | unlockR => exact fun h => hinv h
  | unlockP => exact fun h => hinv h
  | unlockS => exact fun h => hinv h
  | doReset =>
    intro hst
    simp [applyOp, reset, notifyListeners, initialRoomState] at hst

lemma foldl_applyOp_inv : ∀ (ops : List Op) (s : Store), StoreInv s →
    (∀ op ∈ ops, OpOK op) → StoreInv (ops.foldl applyOp s) := by
  intro ops
  induction ops with
  | nil => intro s h _; exact h
  | cons op rest ih =>
    intro s h hok
    rw [List.foldl_cons]
    exact ih (applyOp s op)
      (applyOp_inv s op (hok op (List.mem_cons_self op rest)) h)
      (fun x hx => hok x (List.mem_cons_of_mem op hx))

lemma initialStore_inv : StoreInv initialStore := by
  intro h
  simp [initialStore, initialRoomState] at h

/-- C6 (amended): in every store reachable by well-formed operations, once
started, `currentIndex` lies strictly inside `openingOrder` (the lower bound
is the type); and every operation other than `startGame` leaves
`openingOrder` unchanged while the game remains started.  (The original
claim's "no operation" fails: a second `startGame` reshuffles the order, see
the counterexample.) -/
theorem c6_invariant_amended :
    (∀ ops : List Op, (∀ op ∈ ops, OpOK op) →
      (run ops).roomState.isStarted = true →
      (run ops).roomState.currentIndex <
        (run ops).roomState.openingOrder.length) ∧
    (∀ (s : Store) (op : Op), ¬ isStartOp op →
      s.roomState.isStarted = true →
      (applyOp s op).roomState.isStarted = true →
      (applyOp s op).roomState.openingOrder = s.roomState.openingOrder) := by
  constructor
  · intro ops hok
    exact foldl_applyOp_inv ops initialStore initialStore_inv hok
  · intro s op hns h1 h2
    cases op with
    | register name =>
      exact congrArg (fun rs => rs.openingOrder) (registerPlayer_roomState name s)
    | start shuffle now => exact absurd trivial hns
    | next now =>
      show (nextRecipient now s).roomState.openingOrder = _
      unfold nextRecipient
      split_ifs <;> rfl
    | setTimer seconds => rfl
    | submit p r gs gm now =>
      exact congrArg (fun rs => rs.openingOrder)
        (submitGuess_roomState p r gs gm now s)
    | setSanta r name => rfl
    | unlockR => rfl
    | unlockP => rfl
    | unlockS => rfl
    | doReset => simp [applyOp, reset, notifyListeners, initialRoomState] at h2

/-- Counterexample to C6 as stated: from the reachable started store, a second
(perfectly well-formed) `startGame` operation keeps the game started yet
replaces `openingOrder`. -/
theorem c6_counterexample :
    OpOK (Op.start List.reverse 1) ∧
    startedStore.roomState.isStarted = true ∧
    (applyOp startedStore (Op.start List.reverse 1)).roomState.isStarted =
      true ∧
    (applyOp startedStore (Op.start List.reverse 1)).roomState.openingOrder ≠
      startedStore.roomState.openingOrder := by
  refine ⟨fun l => l.reverse_perm, rfl, rfl, ?_⟩
  decide

/-- Witness for C6 (amended): the started two-player store satisfies the index
invariant, and a `nextRecipient` operation leaves `openingOrder` unchanged. -/
theorem c6_invariant_amended_witness :
    ((run [Op.register "Alice", Op.register "Bob",
        Op.start id 0]).roomState.currentIndex <
      (run [Op.register "Alice", Op.register "Bob",
        Op.start id 0]).roomState.openingOrder.length) ∧
    (applyOp startedStore (Op.next 3)).roomState.openingOrder =
      startedStore.roomState.openingOrder := by
  have h := c6_invariant_amended
  refine ⟨h.1 [Op.register "Alice", Op.register "Bob", Op.start id 0]
      ?_ (by decide), h.2 startedStore (Op.next 3) (fun hc => hc) rfl
      (by decide)⟩
  intro op hop
  simp only [List.mem_cons, List.not_mem_nil, or_false] at hop
  rcases hop with rfl | rfl | rfl
  · trivial
  · trivial
  · exact fun l => List.Perm.refl l

/-- C7 (amended): a second `startGame()` on an already-started room is not a
no-op — it re-runs the start sequence: `openingOrder` is recomputed as a
shuffle of the current players, `currentIndex` resets to 0, `roundStartedAt`
is re-stamped with the new time, `durationSec` is preserved, `isStarted` stays
true and all three unlock flags reset to false. -/
theorem c7_startGame_restart (shuffle : List String → List String) (now : Int)
    (s : Store) (h : s.roomState.isStarted = true) :
    (startGame shuffle now s).roomState =
      { openingOrder := shuffle (if s.activePlayers.length > 0
            then s.activePlayers else ALL_PLAYERS)
        currentIndex := 0
        roundStartedAt := some now
        durationSec := s.roomState.durationSec
        isStarted := true
        resultsUnlocked := false
        pollUnlocked := false
        sweaterPollUnlocked := false } := rfl

/-- Counterexample to C7 as stated: on the reachable started store, a second
`startGame()` call changes the room state (it reshuffles the order and
re-stamps the round start). -/
theorem c7_counterexample :
    startedStore.roomState.isStarted = true ∧
    (startGame List.reverse 9 startedStore).roomState ≠
      startedStore.roomState := by
  exact ⟨rfl, by decide⟩

/-- Witness for C7 (amended): the second `startGame` on the started store
produces exactly the freshly-restarted room state. -/
theorem c7_startGame_restart_witness :
    (startGame List.reverse 9 startedStore).roomState =
      { openingOrder := List.reverse (if startedStore.activePlayers.length > 0
            then startedStore.activePlayers else ALL_PLAYERS)
        currentIndex := 0
        roundStartedAt := some 9
        durationSec := startedStore.roomState.durationSec
        isStarted := true
        resultsUnlocked := false
        pollUnlocked := false
        sweaterPollUnlocked := false } :=
  c7_startGame_restart List.reverse 9 startedStore rfl

/-- C8: `reset()` restores the observable state of a fresh room — the initial
room record and empty submission, actual-Santa, vote and player collections —
and a subsequent `startGame()` is observably identical to `startGame()` on a
fresh room. -/
theorem c8_reset_spec (s : Store) (shuffle : List String → List String)
    (now : Int) :
    observable (reset s) = observable initialStore ∧
    (reset s).roomState.isStarted = false ∧
    (reset s).roomState.openingOrder = [] ∧
    (reset s).roomState.currentIndex = 0 ∧
    (reset s).roomState.roundStartedAt = none ∧
    (reset s).roomState.resultsUnlocked = false ∧
    (reset s).roomState.pollUnlocked = false ∧
    (reset s).roomState.sweaterPollUnlocked = false ∧
    (reset s).submissions = [] ∧
    (reset s).actualSantas = [] ∧
    (reset s).pollVotes = [] ∧
    (reset s).sweaterVotes = [] ∧
    (reset s).activePlayers = [] ∧
    observable (startGame shuffle now (reset s)) =
      observable (startGame shuffle now initialStore) :=
  ⟨rfl, rfl, rfl, rfl, rfl, rfl, rfl, rfl, rfl, rfl, rfl, rfl, rfl, rfl⟩

/-- C10: `submitGuess` — accepted or rejected — never touches the room state,
never notifies a listener, and leaves every other collection unchanged; the
submissions map either stays the same or gains exactly one appended entry. -/
theorem c10_submitGuess_frame (p : String) (r : Nat) (gs : List String)
    (gm : GameMode) (now : Int) (s : Store) :
    (submitGuess p r gs gm now s).2.roomState = s.roomState ∧
    (submitGuess p r gs gm now s).2.notifyCount = s.notifyCount ∧
    (submitGuess p r gs gm now s).2.activePlayers = s.activePlayers ∧
    (submitGuess p r gs gm now s).2.actualSantas = s.actualSantas ∧
    (submitGuess p r gs gm now s).2.pollVotes = s.pollVotes ∧
    (submitGuess p r gs gm now s).2.sweaterVotes = s.sweaterVotes ∧
    ((submitGuess p r gs gm now s).2.submissions = s.submissions ∨
      ∃ e, (submitGuess p r gs gm now s).2.submissions =
        s.submissions ++ [e]) := by
  simp only [submitGuess]
  split_ifs
  · exact ⟨rfl, rfl, rfl, rfl, rfl, rfl, Or.inl rfl⟩
  · exact ⟨rfl, rfl, rfl, rfl, rfl, rfl, Or.inr ⟨_, rfl⟩⟩

/-! ## Helper lemmas: vote tallies -/

lemma tally_foldl (c : String) :
    ∀ (l : List (String × String)) (acc : String → Option Int),
      (l.foldl (fun res e => tallyStep res e.2) acc) c =
        if (l.countP (fun e => e.2 = c)) = 0 then acc c
        else some ((acc c).getD 0 + (l.countP (fun e => e.2 = c) : Int)) := by
  intro l
  induction l with
  | nil => intro acc; simp
  | cons e l ih =>
    intro acc
    rw [List.foldl_cons, ih]
    by_cases he : e.2 = c
    · have hacc : tallyStep acc e.2 c = some ((acc c).getD 0 + 1) := by
        simp [tallyStep, he]
      have hcount : ((e :: l).countP (fun x => x.2 = c)) =
          (l.countP (fun x => x.2 = c)) + 1 := by
        rw [List.countP_cons]
        simp [he]
      rw [hcount, hacc]
      by_cases h0 : (l.countP (fun x => x.2 = c)) = 0
      · simp [h0]
      · simp only [h0, Nat.add_one_ne_zero, if_false, if_neg h0,
          Option.getD_some]
        congr 1
        push_cast
        ring
    · have hacc : tallyStep acc e.2 c = acc c := by
        simp [tallyStep, he]
        intro hc
        exact absurd hc.symm he
      have hcount : ((e :: l).countP (fun x => x.2 = c)) =
          (l.countP (fun x => x.2 = c)) := by
        rw [List.countP_cons]
        simp [he]
      rw [hcount, hacc]

lemma getPollResults_eq (s : Store) (c : String) :
    getPollResults s c =
      if (s.pollVotes.countP (fun e => e.2 = c)) = 0 then none
      else some (s.pollVotes.countP (fun e => e.2 = c)) := by
  unfold getPollResults
  rw [tally_foldl]
  split_ifs <;> simp

lemma getSweaterPollResults_eq (s : Store) (c : String) :
    getSweaterPollResults s c =
      if (s.sweaterVotes.countP (fun e => e.2 = c)) = 0 then none
      else some (s.sweaterVotes.countP (fun e => e.2 = c)) := by
  unfold getSweaterPollResults
  rw [tally_foldl]
  split_ifs <;> simp

/-- C9: for each poll independently, a voter's first vote is accepted (`true`)
and appended, a second vote by the same voter is rejected (`false`) and
changes nothing, and the tally maps every candidate to exactly the number of
stored (accepted) votes naming that candidate (candidates with zero votes are
absent from the record). -/
theorem c9_polls_spec :
    (∀ (s : Store) (v c : String), (∀ e ∈ s.pollVotes, e.1 ≠ v) →
      (submitPollVote v c s).1 = true ∧
      (submitPollVote v c s).2.pollVotes = s.pollVotes ++ [(v, c)]) ∧
    (∀ (s : Store) (v c : String), (∃ e ∈ s.pollVotes, e.1 = v) →
      (submitPollVote v c s).1 = false ∧ (submitPollVote v c s).2 = s) ∧
    (∀ (s : Store) (c : String), getPollResults s c =
      if (s.pollVotes.countP (fun e => e.2 = c)) = 0 then none
      else some (s.pollVotes.countP (fun e => e.2 = c))) ∧
    (∀ (s : Store) (v c : String), (∀ e ∈ s.sweaterVotes, e.1 ≠ v) →
      (submitSweaterVote v c s).1 = true ∧
      (submitSweaterVote v c s).2.sweaterVotes = s.sweaterVotes ++ [(v, c)]) ∧
    (∀ (s : Store) (v c : String), (∃ e ∈ s.sweaterVotes, e.1 = v) →
      (submitSweaterVote v c s).1 = false ∧ (submitSweaterVote v c s).2 = s) ∧
    (∀ (s : Store) (c : String), getSweaterPollResults s c =
      if (s.sweaterVotes.countP (fun e => e.2 = c)) = 0 then none
      else some (s.sweaterVotes.countP (fun e => e.2 = c))) := by
  refine ⟨?_, ?_, fun s c => getPollResults_eq s c, ?_, ?_,
    fun s c => getSweaterPollResults_eq s c⟩
  · intro s v c hno
    have hcond : (s.pollVotes.any (fun e => e.1 = v)) = false := by
      rw [List.any_eq_false]
      intro e he
      simp only [decide_eq_true_eq]
      exact hno e he
    simp only [submitPollVote, hcond]
    exact ⟨rfl, rfl⟩
  · intro s v c hyes
    have hcond : (s.pollVotes.any (fun e => e.1 = v)) = true := by
      rw [List.any_eq_true]
      obtain ⟨e, he, hv⟩ := hyes
      exact ⟨e, he, by simp [hv]⟩
    simp only [submitPollVote, hcond]
    exact ⟨rfl, rfl⟩
  · intro s v c hno
    have hcond : (s.sweaterVotes.any (fun e => e.1 = v)) = false := by
      rw [List.any_eq_false]
      intro e he
      simp only [decide_eq_true_eq]
      exact hno e he
    simp only [submitSweaterVote, hcond]
    exact ⟨rfl, rfl⟩
  · intro s v c hyes
    have hcond : (s.sweaterVotes.any (fun e => e.1 = v)) = true := by
      rw [List.any_eq_true]
      obtain ⟨e, he, hv⟩ := hyes
      exact ⟨e, he, by simp [hv]⟩
    simp only [submitSweaterVote, hcond]
    exact ⟨rfl, rfl⟩

/-- Witness for C9: on a fresh store Alice's gift-poll vote for Bob is
accepted, her second vote is rejected leaving the store unchanged, the tally
then maps Bob to exactly 1, and the same holds for the sweater poll. -/
theorem c9_polls_spec_witness :
    (submitPollVote "Alice" "Bob" initialStore).1 = true ∧
    (submitPollVote "Alice" "Carol"
      (submitPollVote "Alice" "Bob" initialStore).2).1 = false ∧
    (submitPollVote "Alice" "Carol"
      (submitPollVote "Alice" "Bob" initialStore).2).2 =
      (submitPollVote "Alice" "Bob" initialStore).2 ∧
    getPollResults (submitPollVote "Alice" "Bob" initialStore).2 "Bob" =
      some 1 ∧
    (submitSweaterVote "Alice" "Bob" initialStore).1 = true ∧
    (submitSweaterVote "Alice" "Carol"
      (submitSweaterVote "Alice" "Bob" initialStore).2).1 = false := by
  have h := c9_polls_spec
  have h1 := h.1 initialStore "Alice" "Bob"
    (by intro e he; simp [initialStore] at he)
  have h2 := h.2.1 (submitPollVote "Alice" "Bob" initialStore).2 "Alice"
    "Carol" ⟨("Alice", "Bob"), by rw [h1.2]; simp [initialStore], rfl⟩
  have h4 := h.2.2.2.1 initialStore "Alice" "Bob"
    (by intro e he; simp [initialStore] at he)
  have h5 := h.2.2.2.2.1 (submitSweaterVote "Alice" "Bob" initialStore).2
    "Alice" "Carol" ⟨("Alice", "Bob"), by rw [h4.2]; simp [initialStore], rfl⟩
  refine ⟨h1.1, h2.1, h2.2, ?_, h4.1, h5.1⟩
  rw [h.2.2.1 (submitPollVote "Alice" "Bob" initialStore).2 "Bob"]
  rw [h1.2]
  decide

/-! ## KeyInv holds in every reachable store, justifying C2's hypothesis -/

lemma applyOp_keyInv (s : Store) (op : Op) (h : KeyInv s) :
    KeyInv (applyOp s op) := by
  cases op with
  | register name =>
    have hs : (registerPlayer name s).submissions = s.submissions := by
      unfold registerPlayer
      split_ifs <;> rfl
    intro e he
    exact h e (hs ▸ he)
  | start shuffle now => exact fun e he => h e he
  | next now =>
    have hs : (nextRecipient now s).submissions = s.submissions := by
      unfold nextRecipient
      split_ifs <;> rfl
    intro e he
    exact h e (hs ▸ he)
  | setTimer seconds => exact fun e he => h e he
  | submit p r gs gm now =>
    intro e he
    have he' : e ∈ (submitGuess p r gs gm now s).2.submissions := he
    by_cases hc : (s.submissions.any (fun x => x.1 = mkKey p r)) = true
    · rw [submitGuess_dup s p r gs gm now hc] at he'
      exact h e he'
    · simp only [Bool.not_eq_true] at hc
      simp only [submitGuess, hc] at he'
      simp only [Bool.false_eq_true, if_false, List.mem_append,
        List.mem_singleton] at he'
      rcases he' with he' | he'
      · exact h e he'
      · rw [he']
  | setSanta r name => exact fun e he => h e he
  | unlockR => exact fun e he => h e he
  | unlockP => exact fun e he => h e he
  | unlockS => exact fun e he => h e he
  | doReset => exact fun e he => absurd he (List.not_mem_nil e)

lemma run_keyInv : ∀ (ops : List Op) (s : Store), KeyInv s →
    KeyInv (ops.foldl applyOp s) := by
  intro ops
  induction ops with
  | nil => exact fun s h => h
  | cons op rest ih =>
    intro s h
    rw [List.foldl_cons]
    exact ih (applyOp s op) (applyOp_keyInv s op h)

lemma initialStore_keyInv : KeyInv initialStore :=
  fun e he => absurd he (List.not_mem_nil e)

end SecretSanta
